import Mathlib

/-!
Verification development for the realtime media-session orchestrator
(GuiaVision, `src/App.tsx` and `src/types.ts`).

The orchestrator state and its event handlers are shallowly embedded:
React `useRef`/`useState` cells become fields of `OrchestratorState`,
each transport callback and user action becomes a pure state transformer,
and the Web Audio clock value (`ctx.currentTime`) is passed as an input to
the events that read it.  Audio times are rationals.
-/

/-- The session lifecycle enum from `src/types.ts` (`AppState`). -/
inductive AppState where
  | IDLE
  | CONNECTING
  | ACTIVE
  | ERROR
deriving DecidableEq, Repr

/-- One outbound media payload handed to `sessionRef.current.sendRealtimeInput`
(image frames carry a base64 string and the `image/jpeg` mime type). -/
structure MediaPayload where
  data : String
  mimeType : String
deriving DecidableEq, Repr

/-- The orchestrator's mutable cells in `App.tsx`, as one record:
`status` (useState), `lastTranscript` (useState),
`audioContextRef` (modelled by whether it was initialized),
`sessionRef` (`none` = null; `some c` = a session whose closed flag is `c`),
`nextStartTimeRef`, `activeSourcesRef` (ids of scheduled sources),
plus `stoppedSources` recording which sources have received `stop()`,
`frameIntervalRef` (the stored interval id) together with `liveIntervals`
(the ids of interval timers currently scheduled in the host), and
`streamTracks` (`videoRef.current.srcObject`: each track's stopped flag). -/
structure OrchestratorState where
  status : AppState
  lastTranscript : String
  audioContextInit : Bool
  session : Option Bool
  nextStartTime : ℚ
  activeSources : Finset Nat
  stoppedSources : Finset Nat
  frameIntervalRef : Option Nat
  liveIntervals : Finset Nat
  streamTracks : Option (List Bool)
deriving DecidableEq

/-- Lines 60-66 of `App.tsx` as a pure step on the playback clock:
given the cursor `next`, the output clock reading `t` and the chunk
duration `d`, return the chosen start time and the advanced cursor
(`startAt = max(nextStartTime, currentTime)`; `nextStartTime = startAt + d`). -/
def scheduleChunk (next t d : ℚ) : ℚ × ℚ :=
  (max next t, max next t + d)

/-- `onAudioOutput` callback (`App.tsx` 57-68): early return when the output
audio context is null; otherwise schedule the chunk at
`max(nextStartTime, ctx.currentTime)`, advance the cursor by the chunk's
duration and add the new source to the active set.  `t` is
`ctx.currentTime`, `d` is `buffer.duration`, `src` is the fresh source id. -/
def onAudioOutput (s : OrchestratorState) (t d : ℚ) (src : Nat) : OrchestratorState :=
  if s.audioContextInit = false then s
  else
    { s with
      nextStartTime := (scheduleChunk s.nextStartTime t d).2,
      activeSources := insert src s.activeSources }

/-- The `source.onended` handler (`App.tsx` 64): drop the finished source
from the active set (a no-op when it was already removed). -/
def onSourceEnded (s : OrchestratorState) (src : Nat) : OrchestratorState :=
  { s with activeSources := s.activeSources.erase src }

/-- `stopAudio` (`App.tsx` 30-34): call `stop()` on every active source,
clear the active set and reset the playback cursor to 0. -/
def stopAudio (s : OrchestratorState) : OrchestratorState :=
  { s with
    stoppedSources := s.stoppedSources ∪ s.activeSources,
    activeSources := ∅,
    nextStartTime := 0 }

/-- `onInterrupted` callback (`App.tsx` 69): runs `stopAudio`. -/
def onInterrupted (s : OrchestratorState) : OrchestratorState :=
  stopAudio s

/-- `onTranscription` callback (`App.tsx` 70-72): update the displayed
transcript only when the utterance is not the user's. -/
def onTranscription (s : OrchestratorState) (text : String) (isUser : Bool) :
    OrchestratorState :=
  if isUser = false then { s with lastTranscript := text } else s

/-- `onError` callback (`App.tsx` 73-77): log, set status to ERROR and speak
an error prompt.  Logging and speech are external effects with no state. -/
def onError (s : OrchestratorState) : OrchestratorState :=
  { s with status := AppState.ERROR }

/-- `onClose` callback (`App.tsx` 78-81): set status to IDLE and speak. -/
def onClose (s : OrchestratorState) : OrchestratorState :=
  { s with status := AppState.IDLE }

/-- The success path of `startAssistance` (`App.tsx` 36-126) after the
awaits resolve: audio contexts initialized, capture stream acquired,
session connected, status set to ACTIVE, and the frame interval registered
(`window.setInterval` returns the fresh id stored in `frameIntervalRef`). -/
def startAssistanceSuccess (s : OrchestratorState) (freshId : Nat)
    (tracks : List Bool) : OrchestratorState :=
  { s with
    status := AppState.ACTIVE,
    audioContextInit := true,
    session := some false,
    streamTracks := some tracks,
    frameIntervalRef := some freshId,
    liveIntervals := insert freshId s.liveIntervals }

/-- The catch branch of `startAssistance` (`App.tsx` 127-131). -/
def startAssistanceFailure (s : OrchestratorState) : OrchestratorState :=
  { s with status := AppState.ERROR }

/-- `stopAssistance` (`App.tsx` 134-142): clear the stored frame interval
when one was stored, close the session when one exists, run `stopAudio`,
stop every track of the capture stream when one is attached, and set the
status to IDLE.  Note the interval id stays in `frameIntervalRef` (the code
never nulls it); clearing removes the id from the host's live timers. -/
def stopAssistance (s : OrchestratorState) : OrchestratorState :=
  let s1 :=
    match s.frameIntervalRef with
    | some id => { s with liveIntervals := s.liveIntervals.erase id }
    | none => s
  let s2 :=
    match s1.session with
    | some _ => { s1 with session := some true }
    | none => s1
  let s3 := stopAudio s2
  let s4 :=
    match s3.streamTracks with
    | some ts => { s3 with streamTracks := some (ts.map (fun _ => true)) }
    | none => s3
  { s4 with status := AppState.IDLE }

/-- One tick of the frame-interval callback (`App.tsx` 89-112).
`refsReady` models the guard on `videoRef`, `canvasRef` and the 2d context;
`encodeResult` is the value `canvas.toBlob` delivered (`none` when the
encoder produced no blob).  The tick mutates no orchestrator state; it at
most emits one `sendRealtimeInput` payload, returned as the second
component. -/
def frameTick (s : OrchestratorState) (refsReady : Bool)
    (encodeResult : Option String) : OrchestratorState × Option MediaPayload :=
  if refsReady = false ∨ s.session = none then (s, none)
  else
    match encodeResult with
    | none => (s, none)
    | some b => (s, some { data := b, mimeType := "image/jpeg" })

/-- The start times chosen for a sequence of chunks delivered to the
scheduler, each chunk given as (output clock reading at arrival, duration),
starting from cursor `next`.  Direct iteration of `scheduleChunk`. -/
def scheduleStarts : ℚ → List (ℚ × ℚ) → List ℚ
  | _, [] => []
  | next, c :: rest =>
      (scheduleChunk next c.1 c.2).1 ::
        scheduleStarts (scheduleChunk next c.1 c.2).2 rest

/-- A concrete reachable Active-session state used for witnesses and
failing-input evaluations: session open, frame interval id 1 live, one
scheduled source (id 5), cursor at 2 s, two live capture tracks. -/
def sampleActiveState : OrchestratorState :=
  { status := AppState.ACTIVE,
    lastTranscript := "",
    audioContextInit := true,
    session := some false,
    nextStartTime := 2,
    activeSources := {5},
    stoppedSources := ∅,
    frameIntervalRef := some 1,
    liveIntervals := {1},
    streamTracks := some [false, false] }

/-- The freshly rendered application state (`App.tsx` 11-22): IDLE, nothing
initialized, empty playback bookkeeping. -/
def idleState : OrchestratorState :=
  { status := AppState.IDLE,
    lastTranscript := "",
    audioContextInit := false,
    session := none,
    nextStartTime := 0,
    activeSources := ∅,
    stoppedSources := ∅,
    frameIntervalRef := none,
    liveIntervals := ∅,
    streamTracks := none }

/-- Modelled from the spec: `createPcmBlob` is imported from
`utils/audio-utils`, a module not present in the provided sources; §4.1
says out-of-range samples are clamped to [-1.0, 1.0], not rejected.  This
is that clamp. -/
def clampSample (x : ℚ) : ℚ := max (-1) (min 1 x)

/-- Modelled from the spec: the 16-bit quantization step of the missing
`createPcmBlob` — clamp the sample, scale to the signed 16-bit range. -/
def sampleToInt16 (x : ℚ) : Int := Int.floor (clampSample x * 32767)

/-- Modelled from the spec: little-endian byte serialization of one 16-bit
sample (two's complement), low byte first. -/
def int16ToLEBytes (v : Int) : List Nat :=
  [(v % 65536).toNat % 256, (v % 65536).toNat / 256]

/-- Modelled from the spec: the byte stream of the PCM frame, two bytes per
input sample, in input order. -/
def pcmBytes : List ℚ → List Nat
  | [] => []
  | x :: rest => int16ToLEBytes (sampleToInt16 x) ++ pcmBytes rest

/-- The wire blob a PCM frame is sent as: binary data plus a fixed
mime/encoding tag. -/
structure PcmBlob where
  data : List Nat
  mimeType : String
deriving DecidableEq, Repr

/-- Modelled from the spec: `createPcmBlob` (`utils/audio-utils`, missing
from the provided sources), per §4.1 — given floating-point samples,
produce a little-endian 16-bit PCM frame of equal sample count plus a
fixed mime tag; out-of-range inputs are clamped; pure and stateless. -/
def createPcmBlob (samples : List ℚ) : PcmBlob :=
  { data := pcmBytes samples, mimeType := "audio/pcm;rate=16000" }

/-- The `scriptProcessor.onaudioprocess` handler (`App.tsx` 117-123): when
the status flag reads ACTIVE and a session exists, encode the input buffer
with `createPcmBlob` and send it; otherwise send nothing. -/
def onAudioProcess (s : OrchestratorState) (samples : List ℚ) : Option PcmBlob :=
  if s.status = AppState.ACTIVE ∧ s.session ≠ none then some (createPcmBlob samples)
  else none

theorem scheduleStarts_length (next : ℚ) (cs : List (ℚ × ℚ)) :
    (scheduleStarts next cs).length = cs.length := by
  induction cs generalizing next with
  | nil => rfl
  | cons c rest ih => simp [scheduleStarts, ih]

theorem scheduleStarts_mem_ge (cs : List (ℚ × ℚ)) (next : ℚ)
    (hd : ∀ c ∈ cs, 0 ≤ c.2) :
    ∀ x ∈ scheduleStarts next cs, next ≤ x := by
  induction cs generalizing next with
  | nil => intro x hx; simp [scheduleStarts] at hx
  | cons c rest ih =>
    intro x hx
    simp only [scheduleStarts, scheduleChunk, List.mem_cons] at hx
    rcases hx with h | h
    · rw [h]; exact le_max_left _ _
    · have h0 : 0 ≤ c.2 := hd c (by simp)
      have htail := ih (max next c.1 + c.2)
        (fun e he => hd e (List.mem_cons_of_mem _ he)) x h
      calc next ≤ max next c.1 := le_max_left _ _
        _ ≤ max next c.1 + c.2 := le_add_of_nonneg_right h0
        _ ≤ x := htail

theorem list_getD_mem {α : Type} (l : List α) (i : Nat) (d : α)
    (h : i < l.length) : l.getD i d ∈ l := by
  induction l generalizing i with
  | nil => simp at h
  | cons a t ih =>
    cases i with
    | zero => simp
    | succ n =>
      simp only [List.getD_cons_succ]
      exact List.mem_cons_of_mem _ (ih n (by simpa using h))

theorem scheduleStarts_no_overlap (cs : List (ℚ × ℚ)) (next : ℚ)
    (hd : ∀ c ∈ cs, 0 ≤ c.2) :
    ∀ i j, i < j → j < cs.length →
      (scheduleStarts next cs).getD i 0 + (cs.getD i (0, 0)).2 ≤
        (scheduleStarts next cs).getD j 0 := by
  induction cs generalizing next with
  | nil => intro i j hij hj; simp at hj
  | cons c rest ih =>
    intro i j hij hj
    cases j with
    | zero => omega
    | succ j =>
      have hjr : j < rest.length := by simpa using hj
      cases i with
      | zero =>
        simp only [scheduleStarts, scheduleChunk, List.getD_cons_zero,
          List.getD_cons_succ]
        have hmem :
            (scheduleStarts (max next c.1 + c.2) rest).getD j 0 ∈
              scheduleStarts (max next c.1 + c.2) rest :=
          list_getD_mem _ j 0 (by rw [scheduleStarts_length]; exact hjr)
        exact scheduleStarts_mem_ge rest (max next c.1 + c.2)
          (fun e he => hd e (List.mem_cons_of_mem _ he)) _ hmem
      | succ i =>
        simp only [scheduleStarts, scheduleChunk, List.getD_cons_succ]
        exact ih (max next c.1 + c.2)
          (fun e he => hd e (List.mem_cons_of_mem _ he)) i j
          (by omega) hjr


theorem scheduleStarts_ge_clock (cs : List (ℚ × ℚ)) (next : ℚ) :
    ∀ k, k < cs.length →
      (cs.getD k (0, 0)).1 ≤ (scheduleStarts next cs).getD k 0 := by
  induction cs generalizing next with
  | nil => intro k hk; simp at hk
  | cons c rest ih =>
    intro k hk
    cases k with
    | zero =>
      simp only [scheduleStarts, scheduleChunk, List.getD_cons_zero]
      exact le_max_right _ _
    | succ k =>
      simp only [scheduleStarts, List.getD_cons_succ]
      exact ih _ k (by simpa using hk)

theorem clampSample_le_one (x : ℚ) : clampSample x ≤ 1 := by
  unfold clampSample
  exact max_le (by norm_num) (min_le_left _ _)

theorem neg_one_le_clampSample (x : ℚ) : -1 ≤ clampSample x :=
  le_max_left _ _

theorem clampSample_idem (x : ℚ) :
    clampSample (clampSample x) = clampSample x := by
  show max (-1) (min 1 (clampSample x)) = clampSample x
  rw [min_eq_right (clampSample_le_one x), max_eq_right (neg_one_le_clampSample x)]

theorem sampleToInt16_zero : sampleToInt16 0 = 0 := by
  norm_num [sampleToInt16, clampSample]

theorem pcmBytes_length (samples : List ℚ) :
    (pcmBytes samples).length = 2 * samples.length := by
  induction samples with
  | nil => rfl
  | cons x rest ih =>
    simp only [pcmBytes, int16ToLEBytes, List.length_append, List.length_cons,
      List.length_nil, ih]
    omega

theorem pcmBytes_map_clamp (samples : List ℚ) :
    pcmBytes (samples.map clampSample) = pcmBytes samples := by
  induction samples with
  | nil => rfl
  | cons x rest ih =>
    simp only [List.map_cons, pcmBytes, ih, sampleToInt16, clampSample_idem]

theorem pcmBytes_replicate_zero (n : Nat) :
    pcmBytes (List.replicate n 0) = List.replicate (2 * n) 0 := by
  induction n with
  | zero => rfl
  | succ n ih =>
    rw [List.replicate_succ, pcmBytes, sampleToInt16_zero, ih,
      show 2 * (n + 1) = 2 + 2 * n by ring, List.replicate_add]
    rfl

/-- Claim C1: each chunk delivered to `onAudioOutput` is scheduled at
`startAt = max(nextStartTime, currentOutputClockTime)` and the cursor is
advanced to `startAt + duration`; consequently, for any chunk sequence with
nonnegative durations, a chunk scheduled later starts no earlier than an
earlier chunk's start plus that chunk's duration, and no chunk starts
before the output clock reading at its arrival. -/
theorem c1_scheduler_no_overlap (s : OrchestratorState) (t d : ℚ) (src : Nat)
    (cs : List (ℚ × ℚ)) (next : ℚ) (i j k : Nat)
    (hctx : s.audioContextInit = true)
    (hd : ∀ c ∈ cs, 0 ≤ c.2)
    (hij : i < j) (hj : j < cs.length) (hk : k < cs.length) :
    (onAudioOutput s t d src).nextStartTime = max s.nextStartTime t + d
    ∧ (scheduleStarts next cs).getD i 0 + (cs.getD i (0, 0)).2 ≤
        (scheduleStarts next cs).getD j 0
    ∧ (cs.getD k (0, 0)).1 ≤ (scheduleStarts next cs).getD k 0 := by
  refine ⟨?_, scheduleStarts_no_overlap cs next hd i j hij hj,
    scheduleStarts_ge_clock cs next k hk⟩
  simp [onAudioOutput, scheduleChunk, hctx]

/-- Witness for C1: three chunks of duration 1 arriving back-to-back at
clock 0 are scheduled at 0, 1, 2 (the spec's back-to-back scenario with
unit durations), and one concrete `onAudioOutput` step advances the cursor
by the max-then-add rule. -/
theorem c1_witness :
    (onAudioOutput sampleActiveState 0 1 7).nextStartTime =
        max sampleActiveState.nextStartTime 0 + 1
    ∧ (scheduleStarts 0 [((0 : ℚ), (1 : ℚ)), (0, 1), (0, 1)]).getD 0 0 +
        (([((0 : ℚ), (1 : ℚ)), (0, 1), (0, 1)]).getD 0 (0, 0)).2 ≤
        (scheduleStarts 0 [((0 : ℚ), (1 : ℚ)), (0, 1), (0, 1)]).getD 2 0
    ∧ (([((0 : ℚ), (1 : ℚ)), (0, 1), (0, 1)]).getD 1 (0, 0)).1 ≤
        (scheduleStarts 0 [((0 : ℚ), (1 : ℚ)), (0, 1), (0, 1)]).getD 1 0 :=
  c1_scheduler_no_overlap sampleActiveState 0 1 7
    [((0 : ℚ), (1 : ℚ)), (0, 1), (0, 1)] 0 0 2 1
    rfl (by decide) (by decide) (by decide) (by decide)

/-- Claim C2: after `onInterrupted` runs, every source that was in the
active set has been stopped, the active set is empty and the cursor is 0;
a chunk arriving immediately afterwards (clock reading `t ≥ 0`) is
scheduled at the current clock time, so the cursor becomes `t + d`. -/
theorem c2_interrupt_flushes_playback (s : OrchestratorState) (t d : ℚ)
    (src : Nat) (hctx : s.audioContextInit = true) (ht : 0 ≤ t) :
    (onInterrupted s).activeSources = ∅
    ∧ (onInterrupted s).nextStartTime = 0
    ∧ s.activeSources ⊆ (onInterrupted s).stoppedSources
    ∧ (onAudioOutput (onInterrupted s) t d src).nextStartTime = t + d := by
  refine ⟨rfl, rfl, ?_, ?_⟩
  · simp [onInterrupted, stopAudio]
  · simp [onInterrupted, stopAudio, onAudioOutput, scheduleChunk, hctx,
      max_eq_right ht]

/-- Witness for C2: the interrupt on the concrete active state stops source
5, empties the set, zeroes the cursor, and the next chunk (clock 3,
duration 1) starts at 3. -/
theorem c2_witness :
    (onInterrupted sampleActiveState).activeSources = ∅
    ∧ (onInterrupted sampleActiveState).nextStartTime = 0
    ∧ sampleActiveState.activeSources ⊆
        (onInterrupted sampleActiveState).stoppedSources
    ∧ (onAudioOutput (onInterrupted sampleActiveState) 3 1 9).nextStartTime =
        3 + 1 :=
  c2_interrupt_flushes_playback sampleActiveState 3 1 9 rfl (by decide)

/-- Claim C7: `onTranscription` with a user utterance leaves the whole
orchestrator state unchanged; with a model utterance it updates the
displayed transcript. -/
theorem c7_user_transcripts_ignored (s : OrchestratorState) (text : String) :
    onTranscription s text true = s
    ∧ (onTranscription s text false).lastTranscript = text :=
  ⟨rfl, rfl⟩

/-- Claim C8: a frame tick whose encoder produced no blob is isolated — the
orchestrator state is returned unchanged (status and cadence included) and
no payload is emitted. -/
theorem c8_encode_failure_isolated (s : OrchestratorState) (refsReady : Bool) :
    (frameTick s refsReady none).1 = s
    ∧ (frameTick s refsReady none).2 = none
    ∧ (frameTick s refsReady none).1.status = s.status
    ∧ (frameTick s refsReady none).1.liveIntervals = s.liveIntervals := by
  unfold frameTick
  split
  · exact ⟨rfl, rfl, rfl, rfl⟩
  · exact ⟨rfl, rfl, rfl, rfl⟩

/-- Claim C10: when the output audio context was never initialized,
`onAudioOutput` returns the state unchanged — in particular the cursor and
the active set are untouched. -/
theorem c10_null_context_noop (s : OrchestratorState) (t d : ℚ) (src : Nat)
    (h : s.audioContextInit = false) :
    onAudioOutput s t d src = s
    ∧ (onAudioOutput s t d src).nextStartTime = s.nextStartTime
    ∧ (onAudioOutput s t d src).activeSources = s.activeSources := by
  have he : onAudioOutput s t d src = s := by simp [onAudioOutput, h]
  exact ⟨he, by rw [he], by rw [he]⟩

/-- Witness for C10: on the fresh idle state (null audio context) a chunk
at clock 3 with duration 1 changes nothing. -/
theorem c10_witness :
    onAudioOutput idleState 3 1 2 = idleState
    ∧ (onAudioOutput idleState 3 1 2).nextStartTime = idleState.nextStartTime
    ∧ (onAudioOutput idleState 3 1 2).activeSources = idleState.activeSources :=
  c10_null_context_noop idleState 3 1 2 rfl

theorem stopAssistance_eq (s : OrchestratorState) :
    stopAssistance s =
      { status := AppState.IDLE,
        lastTranscript := s.lastTranscript,
        audioContextInit := s.audioContextInit,
        session := s.session.map (fun _ => true),
        nextStartTime := 0,
        activeSources := ∅,
        stoppedSources := s.stoppedSources ∪ s.activeSources,
        frameIntervalRef := s.frameIntervalRef,
        liveIntervals :=
          match s.frameIntervalRef with
          | some id => s.liveIntervals.erase id
          | none => s.liveIntervals,
        streamTracks := s.streamTracks.map (fun ts => ts.map (fun _ => true)) } := by
  obtain ⟨st, lt, ac, sess, nst, act, stp, fir, li, trk⟩ := s
  rcases fir with _ | id <;> rcases sess with _ | c <;> rcases trk with _ | ts <;> rfl

/-- Claim C3 fails on the code (evaluation at the failing input): from the
concrete active state with the frame interval (id 1) live, the transport
close callback moves the status out of ACTIVE to IDLE, and the error
callback to ERROR, yet in both cases the frame interval is still live —
the cadence is not torn down on these transitions out of Active. -/
theorem c3_frame_cadence_survives_exit_from_active :
    (onClose sampleActiveState).status = AppState.IDLE
    ∧ (onClose sampleActiveState).liveIntervals = {1}
    ∧ (onError sampleActiveState).status = AppState.ERROR
    ∧ (onError sampleActiveState).liveIntervals = {1} := by
  exact ⟨rfl, rfl, rfl, rfl⟩

/-- Claim C4 fails on the code (evaluation at the failing input): the
transport close and error callbacks perform none of the cleanup that the
user stop action performs — after `onClose` (and `onError`) the frame
interval is still live, the session is still open, the capture tracks are
still running and the scheduled source is still active, whereas
`stopAssistance` on the same state clears all four. -/
theorem c4_close_and_error_skip_cleanup :
    (onClose sampleActiveState).liveIntervals = {1}
    ∧ (onClose sampleActiveState).session = some false
    ∧ (onClose sampleActiveState).streamTracks = some [false, false]
    ∧ (onClose sampleActiveState).activeSources = {5}
    ∧ (onError sampleActiveState).liveIntervals = {1}
    ∧ (stopAssistance sampleActiveState).liveIntervals = ∅
    ∧ (stopAssistance sampleActiveState).session = some true
    ∧ (stopAssistance sampleActiveState).streamTracks = some [true, true]
    ∧ (stopAssistance sampleActiveState).activeSources = ∅ := by
  refine ⟨rfl, rfl, rfl, rfl, rfl, ?_, ?_, ?_, ?_⟩ <;> rw [stopAssistance_eq] <;> rfl

theorem stopTracks_comp :
    ((fun ts : List Bool => List.replicate ts.length true) ∘
      fun ts : List Bool => List.replicate ts.length true) =
      fun ts : List Bool => List.replicate ts.length true := by
  funext ts
  simp

/-- Claim C5: the stop operation is a no-op on the idle state (no state
change, and being a total function it raises nothing), and running it twice
in succession from any state equals running it once. -/
theorem c5_stop_idempotent :
    stopAssistance idleState = idleState
    ∧ ∀ s : OrchestratorState, stopAssistance (stopAssistance s) = stopAssistance s := by
  constructor
  · rw [stopAssistance_eq]; rfl
  · intro s
    rcases h : s.frameIntervalRef with _ | id <;>
      simp [stopAssistance_eq, h, Option.map_map, Finset.erase_idem,
        stopTracks_comp]

/-- Claim C9: from any state in which every live frame interval is the one
stored in `frameIntervalRef` (true in all reachable states, whatever the
status — Idle, Connecting, Active or Error), `stopAssistance` yields status
IDLE, no live frame interval, an empty active playback set and a zero
cursor. -/
theorem c9_stop_reaches_idle_from_any_state (s : OrchestratorState)
    (hlive : ∀ x ∈ s.liveIntervals, s.frameIntervalRef = some x) :
    (stopAssistance s).status = AppState.IDLE
    ∧ (stopAssistance s).liveIntervals = ∅
    ∧ (stopAssistance s).activeSources = ∅
    ∧ (stopAssistance s).nextStartTime = 0 := by
  have he := stopAssistance_eq s
  refine ⟨by rw [he], ?_, by rw [he], by rw [he]⟩
  rw [he]
  show (match s.frameIntervalRef with
    | some id => s.liveIntervals.erase id
    | none => s.liveIntervals) = ∅
  rcases h : s.frameIntervalRef with _ | id
  · exact Finset.eq_empty_iff_forall_not_mem.mpr (fun x hx => by
      have hx2 := hlive x hx
      rw [h] at hx2
      exact Option.noConfusion hx2)
  · exact Finset.eq_empty_iff_forall_not_mem.mpr (fun x hx => by
      have hxm := Finset.mem_erase.mp hx
      have hx2 := hlive x hxm.2
      rw [h] at hx2
      exact hxm.1 (Option.some.inj hx2).symm)

/-- Witness for C9: `stopAssistance` on the concrete active state (frame
interval 1 live and stored, source 5 playing) lands in the clean idle
shape. -/
theorem c9_witness :
    (stopAssistance sampleActiveState).status = AppState.IDLE
    ∧ (stopAssistance sampleActiveState).liveIntervals = ∅
    ∧ (stopAssistance sampleActiveState).activeSources = ∅
    ∧ (stopAssistance sampleActiveState).nextStartTime = 0 :=
  c9_stop_reaches_idle_from_any_state sampleActiveState (by decide)

/-- Claim C6 (against the spec-modelled `createPcmBlob`, the source module
being absent): the PCM frame carries exactly two little-endian bytes per
input sample, clamping the input first changes nothing (out-of-range
samples are clamped, not rejected), the mime tag is fixed, and all-zero
input yields an all-zero frame of the correct length.  Determinism is
inherent: `createPcmBlob` is a pure function of its input. -/
theorem c6_pcm_encoder_contract (samples : List ℚ) (n : Nat) :
    (createPcmBlob samples).data.length = 2 * samples.length
    ∧ createPcmBlob (samples.map clampSample) = createPcmBlob samples
    ∧ (createPcmBlob samples).mimeType = "audio/pcm;rate=16000"
    ∧ (createPcmBlob (List.replicate n 0)).data = List.replicate (2 * n) 0 :=
  ⟨pcmBytes_length samples,
    by simp [createPcmBlob, pcmBytes_map_clamp],
    rfl,
    pcmBytes_replicate_zero n⟩
